import Mathlib

/-!
Verification of the TaskFlow voice-control core.

Shallow embedding of the TypeScript source: the mock task store
(`DjangoAPI`), the PCM codec and base64 transcoding utilities, the live
tool-call dispatcher (`onmessage` handler), the playback scheduler, and
the session-start path.  Machine floats are modelled as rationals; the
browser's `localStorage`-backed store is modelled as an explicit
`List Task` state threaded through each operation; async functions that
can reject are modelled with `Except String`.
-/

namespace TaskFlow

/-- Task priority, matching `type Priority = 'Low' | 'Medium' | 'High'`. -/
inductive Priority where
  | Low
  | Medium
  | High
deriving DecidableEq

/-- Subtask record, matching `interface Subtask`. -/
structure Subtask where
  id : String
  title : String
  completed : Bool
deriving DecidableEq

/-- Task record, matching `interface Task`.  Optional string fields that the
dispatcher always fills with a string (possibly `""`) are plain `String`;
`completed_at` is kept as `Option String` because it is genuinely absent
until something writes it. -/
structure Task where
  id : Nat
  title : String
  description : String
  priority : Priority
  completed : Bool
  created_at : String
  due_date : String
  completed_at : Option String
  subtasks : List Subtask
deriving DecidableEq

/-- Field bundle passed to `DjangoAPI.createTask`
(`Omit<Task, 'id' | 'created_at'>`). -/
structure CreateData where
  title : String
  description : String
  priority : Priority
  completed : Bool
  due_date : String
  subtasks : List Subtask := []
deriving DecidableEq

/-- A `Partial<Task>` update object.  `none` means the key is absent from the
update; for `completed_at` the inner `Option` mirrors writing an explicit
`undefined` (as `handleToggle` does when un-completing). -/
structure TaskPatch where
  title : Option String := none
  description : Option String := none
  priority : Option Priority := none
  completed : Option Bool := none
  due_date : Option String := none
  completed_at : Option (Option String) := none
deriving DecidableEq

/-- JS object spread `{ ...task, ...updates }`: keys present in the update
override the task's fields. -/
def applyPatch (t : Task) (p : TaskPatch) : Task :=
  { t with
    title := p.title.getD t.title
    description := p.description.getD t.description
    priority := p.priority.getD t.priority
    completed := p.completed.getD t.completed
    due_date := p.due_date.getD t.due_date
    completed_at := p.completed_at.getD t.completed_at }

namespace DjangoAPI

/-- `DjangoAPI.getTasks`: reads the whole store. -/
def getTasks (tasks : List Task) : List Task := tasks

/-- `DjangoAPI.createTask`: next id is `Math.max(...ids) + 1`, or `1` on an
empty store (`foldr max 0` agrees with `Math.max` on any nonempty list of
naturals); the new task is prepended (`[newTask, ...tasks]`).  `now` stands
for `new Date().toISOString()`. -/
def createTask (now : String) (data : CreateData) (tasks : List Task) :
    Task × List Task :=
  let nextId := if tasks.isEmpty then 1 else (tasks.map (fun t => t.id)).foldr max 0 + 1
  let newTask : Task :=
    { id := nextId
      title := data.title
      description := data.description
      priority := data.priority
      completed := data.completed
      created_at := now
      due_date := data.due_date
      completed_at := none
      subtasks := data.subtasks }
  (newTask, newTask :: tasks)

/-- `DjangoAPI.updateTask`: `findIndex` locates the first task with the given
id; if none exists the promise rejects with `Error('404 Not Found')`,
otherwise that entry is replaced in place by the merged task. -/
def updateTask : List Task → Nat → TaskPatch → Except String (Task × List Task)
  | [], _, _ => Except.error "404 Not Found"
  | t :: rest, tid, p =>
    if t.id = tid then
      let updatedTask := applyPatch t p
      Except.ok (updatedTask, updatedTask :: rest)
    else
      match updateTask rest tid p with
      | Except.ok (u, rest') => Except.ok (u, t :: rest')
      | Except.error e => Except.error e

/-- `DjangoAPI.deleteTask`: filters out every task whose id matches and
resolves; the function body has no reject path, so the result is always
`Except.ok`. -/
def deleteTask (tasks : List Task) (tid : Nat) : Except String (List Task) :=
  Except.ok (tasks.filter (fun t => t.id != tid))

/-- `DjangoAPI.deleteCompletedTasks`: keeps active tasks and returns how many
were removed. -/
def deleteCompletedTasks (tasks : List Task) : Nat × List Task :=
  let activeTasks := tasks.filter (fun t => !t.completed)
  (tasks.length - activeTasks.length, activeTasks)

end DjangoAPI

/-- Arguments object of an inbound function call.  `title`, `id` and
`completed` are `required` in the tool manifest (`liveTools`); the rest are
optional and defaulted by the dispatcher itself. -/
structure ToolArgs where
  title : String := ""
  description : Option String := none
  priority : Option Priority := none
  due_date : Option String := none
  id : Nat := 0
  completed : Bool := false
deriving DecidableEq

/-- One `ToolCallRequest` (`fc` in the `onmessage` loop). -/
structure FunctionCall where
  id : String
  name : String
  args : ToolArgs
deriving DecidableEq

/-- Task summary shape produced by the `get_tasks` branch. -/
structure TaskSummary where
  id : Nat
  title : String
  priority : Priority
  completed : Bool
  due_date : String
deriving DecidableEq

def summarize (t : Task) : TaskSummary :=
  { id := t.id
    title := t.title
    priority := t.priority
    completed := t.completed
    due_date := t.due_date }

/-- The `result` value sent back for one call: either an `{ error: ... }`
object (unknown name, or a caught store rejection) or the operation's
success payload. -/
inductive ToolPayload where
  | errorPayload (msg : String)
  | createdTask (t : Task)
  | taskList (l : List TaskSummary)
  | ack
  | ackCount (n : Nat)
deriving DecidableEq

/-- One `sendToolResponse` message body:
`{ id: fc.id, name: fc.name, response: { result } }`. -/
structure ToolResult where
  id : String
  name : String
  payload : ToolPayload
deriving DecidableEq

/-- The body of the `for (const fc of msg.toolCall.functionCalls)` loop:
initialize `result` to the unknown-function error, run the `switch` inside
`try`, catch any store rejection into an error payload, and send exactly one
response carrying `fc.id` and `fc.name`.  The store state is threaded
explicitly. -/
def handleCall (now : String) (st : List Task) (fc : FunctionCall) :
    ToolResult × List Task :=
  match fc.name with
  | "create_task" =>
    let r := DjangoAPI.createTask now
      { title := fc.args.title
        description := fc.args.description.getD ""
        priority := fc.args.priority.getD Priority.Medium
        completed := false
        due_date := fc.args.due_date.getD "" } st
    ({ id := fc.id, name := fc.name, payload := ToolPayload.createdTask r.1 }, r.2)
  | "get_tasks" =>
    ({ id := fc.id, name := fc.name
       payload := ToolPayload.taskList ((DjangoAPI.getTasks st).map summarize) }, st)
  | "update_task_status" =>
    match DjangoAPI.updateTask st fc.args.id { completed := some fc.args.completed } with
    | Except.ok r =>
      ({ id := fc.id, name := fc.name, payload := ToolPayload.ack }, r.2)
    | Except.error e =>
      ({ id := fc.id, name := fc.name, payload := ToolPayload.errorPayload e }, st)
  | "delete_task" =>
    match DjangoAPI.deleteTask st fc.args.id with
    | Except.ok st' =>
      ({ id := fc.id, name := fc.name, payload := ToolPayload.ack }, st')
    | Except.error e =>
      ({ id := fc.id, name := fc.name, payload := ToolPayload.errorPayload e }, st)
  | "delete_completed_tasks" =>
    let r := DjangoAPI.deleteCompletedTasks st
    ({ id := fc.id, name := fc.name, payload := ToolPayload.ackCount r.1 }, r.2)
  | _ =>
    ({ id := fc.id, name := fc.name, payload := ToolPayload.errorPayload "Unknown function" }, st)

/-- The whole `msg.toolCall` branch: iterate over the batch in order,
producing one result per request and threading the store state. -/
def dispatchBatch (now : String) (st : List Task) :
    List FunctionCall → List ToolResult × List Task
  | [] => ([], st)
  | fc :: rest =>
    let r := handleCall now st fc
    let rs := dispatchBatch now r.2 rest
    (r.1 :: rs.1, rs.2)

/-! ### PCM codec and base64 transcoding

Float samples are modelled as rationals; a JS number assigned into an
`Int16Array` is truncated toward zero and wrapped into signed 16-bit range
(`ToInt16`).  Byte buffers are lists of naturals below 256; base64 text is
the list of its character codes. -/

/-- `Math.max(-1, Math.min(1, f))`. -/
def clampSample (q : ℚ) : ℚ := max (-1) (min 1 q)

/-- Truncation toward zero of a number, the first half of JS `ToInt16`. -/
def truncQ (q : ℚ) : ℤ := if q < 0 then -⌊-q⌋ else ⌊q⌋

/-- Wrap into signed 16-bit range, the second half of JS `ToInt16`. -/
def wrap16 (z : ℤ) : ℤ := (z + 32768) % 65536 - 32768

/-- Per-sample body of `float32To16BitPCM`:
`let s = clamp(f); int16[i] = s < 0 ? s * 0x8000 : s * 0x7FFF`. -/
def pcm16 (f : ℚ) : ℤ :=
  let s := clampSample f
  wrap16 (truncQ (if s < 0 then s * 32768 else s * 32767))

/-- `float32To16BitPCM`: encode every sample. -/
def float32To16BitPCM (float32 : List ℚ) : List ℤ := float32.map pcm16

/-- Reading the `Int16Array`'s backing buffer as bytes (little-endian,
two bytes per sample). -/
def int16ToBytes : List ℤ → List Nat
  | [] => []
  | z :: rest =>
    let u := (z % 65536).toNat
    u % 256 :: u / 256 :: int16ToBytes rest

/-- Reinterpreting an even-length byte buffer as little-endian signed
16-bit integers (`new Int16Array(bytes.buffer)` element reads). -/
def bytesToInt16 : List Nat → List ℤ
  | lo :: hi :: rest =>
    (let u := lo + 256 * hi
     if u < 32768 then (u : ℤ) else (u : ℤ) - 65536) :: bytesToInt16 rest
  | _ => []

/-- Base64 alphabet: sextet value to character code. -/
def b64char (s : Nat) : Nat :=
  if s < 26 then 65 + s
  else if s < 52 then 97 + (s - 26)
  else if s < 62 then 48 + (s - 52)
  else if s = 62 then 43
  else 47

/-- Base64 alphabet: character code back to sextet value. -/
def b64value (c : Nat) : Nat :=
  if 65 ≤ c ∧ c ≤ 90 then c - 65
  else if 97 ≤ c ∧ c ≤ 122 then c - 97 + 26
  else if 48 ≤ c ∧ c ≤ 57 then c - 48 + 52
  else if c = 43 then 62
  else if c = 47 then 63
  else 0

/-- `arrayBufferToBase64`'s `btoa`: pack three bytes into four characters,
padding a final 1- or 2-byte group with `'='` (code 61). -/
def base64Encode : List Nat → List Nat
  | [] => []
  | [b0] => [b64char (b0 / 4), b64char (b0 % 4 * 16), 61, 61]
  | [b0, b1] => [b64char (b0 / 4), b64char (b0 % 4 * 16 + b1 / 16), b64char (b1 % 16 * 4), 61]
  | b0 :: b1 :: b2 :: rest =>
    b64char (b0 / 4) :: b64char (b0 % 4 * 16 + b1 / 16) ::
      b64char (b1 % 16 * 4 + b2 / 64) :: b64char (b2 % 64) :: base64Encode rest

/-- `atob`: unpack four characters into three bytes, fewer at a padded
tail. -/
def base64Decode : List Nat → List Nat
  | c0 :: c1 :: c2 :: c3 :: rest =>
    if c2 = 61 then [b64value c0 * 4 + b64value c1 / 16]
    else if c3 = 61 then
      [b64value c0 * 4 + b64value c1 / 16, b64value c1 % 16 * 16 + b64value c2 / 4]
    else
      (b64value c0 * 4 + b64value c1 / 16) :: (b64value c1 % 16 * 16 + b64value c2 / 4) ::
        (b64value c2 % 4 * 64 + b64value c3) :: base64Decode rest
  | _ => []

/-- `arrayBufferToBase64`: view the buffer as bytes and apply `btoa`. -/
def arrayBufferToBase64 (buffer : List Nat) : List Nat := base64Encode buffer

/-- Failure modes of the inbound audio path.  The spec's taxonomy names a
dedicated `MalformedAudio` condition; the only failure the code can actually
produce here is the `RangeError` thrown by `new Int16Array(buffer)` when the
buffer's byte length is not a multiple of 2. -/
inductive AudioError where
  | rangeError
  | malformedAudio
deriving DecidableEq

/-- `new Int16Array(bytes.buffer)`: throws a `RangeError` when the byte
length is odd, otherwise yields the element reads. -/
def int16ViewOfBytes (bytes : List Nat) : Except AudioError (List ℤ) :=
  if bytes.length % 2 = 0 then Except.ok (bytesToInt16 bytes)
  else Except.error AudioError.rangeError

/-- Division of a decoded 16-bit integer by 32768.0, the per-element step
of `base64ToFloat32Array`. -/
def decodedSample (z : ℤ) : ℚ := (z : ℚ) / 32768

/-- `base64ToFloat32Array`: `atob`, copy the character codes into a byte
buffer, reinterpret as `Int16Array`, divide each element by 32768.0. -/
def base64ToFloat32Array (base64 : List Nat) : Except AudioError (List ℚ) :=
  let bytes := base64Decode base64
  match int16ViewOfBytes bytes with
  | Except.error e => Except.error e
  | Except.ok int16 => Except.ok (int16.map decodedSample)

/-! ### Playback scheduler

The `onmessage` audio branch keeps the closure variable `nextStartTime`
(initially 0) and for each arriving segment runs
`startTime = Math.max(outputCtx.currentTime, nextStartTime);
source.start(startTime); nextStartTime = startTime + buffer.duration`.
A segment is modelled as the pair (device time at arrival, duration). -/

def scheduleSegs : ℚ → List (ℚ × ℚ) → List ℚ
  | _, [] => []
  | nextStartTime, (now, d) :: rest =>
    let startTime := max now nextStartTime
    startTime :: scheduleSegs (startTime + d) rest

/-- Scheduled start times of a whole session, `nextStartTime` starting
at 0. -/
def playbackStarts (segs : List (ℚ × ℚ)) : List ℚ := scheduleSegs 0 segs

/-! ### Session start path

`startLiveSession` awaits `getUserMedia` inside `try`; only after it
resolves is `ai.live.connect` called.  A `getUserMedia` rejection lands in
the `catch`, which sets `liveError` to "Microphone access denied." and
nothing else; `setIsLiveActive(true)` only ever runs in the `onopen`
callback, and a failed connection surfaces through `onerror`. -/

/-- Outcome of the transport connection attempt, as seen through the
`onopen`/`onerror` callbacks. -/
inductive ConnectOutcome where
  | opened
  | failed
deriving DecidableEq

/-- Observable effects of one `startLiveSession` call. -/
structure StartOutcome where
  liveError : Option String
  isLiveActive : Bool
  /-- whether `ai.live.connect` was ever called -/
  connectAttempted : Bool
  /-- whether `setIsLiveActive(true)` ever ran -/
  everActive : Bool
deriving DecidableEq

def startLiveSession (deviceGranted : Bool) (connect : ConnectOutcome) : StartOutcome :=
  if deviceGranted then
    match connect with
    | ConnectOutcome.opened =>
      { liveError := none, isLiveActive := true, connectAttempted := true, everActive := true }
    | ConnectOutcome.failed =>
      { liveError := some "Connection error.", isLiveActive := false,
        connectAttempted := true, everActive := false }
  else
    { liveError := some "Microphone access denied.", isLiveActive := false,
      connectAttempted := false, everActive := false }

/-- The `handleToggle` UI handler's update object: it stamps
`completed_at` with the current time exactly when the task is being marked
completed, and explicitly overwrites it with `undefined` otherwise. -/
def handleTogglePatch (now : String) (current : Bool) : TaskPatch :=
  { completed := some (!current)
    completed_at := some (if !current then some now else none) }

/-! ### Concrete sample inputs used by witnesses and counterexamples -/

/-- A store holding one active task with id 1. -/
def exStoreTask : Task :=
  { id := 1, title := "Report", description := "", priority := Priority.Medium,
    completed := false, created_at := "2025-01-01", due_date := "",
    completed_at := none, subtasks := [] }

/-- An `update_task_status` call against task id 7. -/
def exUpdateCall : FunctionCall :=
  { id := "call-7", name := "update_task_status", args := { id := 7, completed := true } }

/-- The "Buy milk" `create_task` call with priority unspecified. -/
def exCreateMilk : FunctionCall :=
  { id := "call-1", name := "create_task", args := { title := "Buy milk" } }

/-- Two playback segments: (device time at arrival, duration). -/
def exSegs : List (ℚ × ℚ) := [(0, 1), (2, 3)]

end TaskFlow

namespace TaskFlow

/-! ## Helper lemmas -/

theorem handleCall_fst_id (now : String) (st : List Task) (fc : FunctionCall) :
    (handleCall now st fc).1.id = fc.id := by
  unfold handleCall
  split <;> first | rfl | (split <;> rfl)

theorem dispatch_append (now : String) (st : List Task) (a b : List FunctionCall) :
    dispatchBatch now st (a ++ b) =
      ((dispatchBatch now st a).1 ++ (dispatchBatch now (dispatchBatch now st a).2 b).1,
       (dispatchBatch now (dispatchBatch now st a).2 b).2) := by
  induction a generalizing st with
  | nil => simp [dispatchBatch]
  | cons fc rest ih => simp [dispatchBatch, ih]

theorem updateTask_not_found (tasks : List Task) (tid : Nat) (p : TaskPatch)
    (h : ∀ t ∈ tasks, t.id ≠ tid) :
    DjangoAPI.updateTask tasks tid p = Except.error "404 Not Found" := by
  induction tasks with
  | nil => rfl
  | cons t rest ih =>
    have ht : ¬t.id = tid := h t (by simp)
    have ih' := ih (fun u hu => h u (by simp [hu]))
    simp [DjangoAPI.updateTask, ht, ih']

theorem handleCall_update_missing (now : String) (st : List Task) (fc : FunctionCall)
    (hname : fc.name = "update_task_status") (hmiss : ∀ t ∈ st, t.id ≠ fc.args.id) :
    handleCall now st fc =
      ({ id := fc.id, name := fc.name,
         payload := ToolPayload.errorPayload "404 Not Found" }, st) := by
  have h := updateTask_not_found st fc.args.id { completed := some fc.args.completed } hmiss
  simp [handleCall, hname, h]

theorem le_foldr_max (l : List Nat) (x : Nat) (hx : x ∈ l) : x ≤ l.foldr max 0 := by
  induction l with
  | nil => simp at hx
  | cons a l ih =>
    rcases List.mem_cons.1 hx with rfl | h
    · exact le_max_left _ _
    · exact le_trans (ih h) (le_max_right _ _)

/-! ## Claim theorems -/

/-- C3: Tool dispatch completeness — for every inbound batch the dispatcher
produces exactly one result per request, in order, and each result's `id` is
the `id` of the request it answers, echoed verbatim. -/
theorem dispatch_completeness (now : String) (st : List Task) (batch : List FunctionCall) :
    (dispatchBatch now st batch).1.length = batch.length ∧
    (dispatchBatch now st batch).1.map (fun r => r.id) = batch.map (fun fc => fc.id) := by
  induction batch generalizing st with
  | nil => simp [dispatchBatch]
  | cons fc rest ih =>
    have h := ih (handleCall now st fc).2
    simp [dispatchBatch, handleCall_fst_id, h.1, h.2]

/-- C4: Tool dispatch failure isolation — when a request's task-store
operation throws (update_task_status on an id absent from the store at that
point), the exception is converted into that request's error payload, the
store state is untouched, and every sibling's result (and the final state)
is exactly what it would be if the failing request were absent from the
batch. -/
theorem dispatch_isolation (now : String) (st : List Task) (pre post : List FunctionCall)
    (fc : FunctionCall) (hname : fc.name = "update_task_status")
    (hmiss : ∀ t ∈ (dispatchBatch now st pre).2, t.id ≠ fc.args.id) :
    dispatchBatch now st (pre ++ fc :: post) =
      ((dispatchBatch now st pre).1 ++
        { id := fc.id, name := fc.name,
          payload := ToolPayload.errorPayload "404 Not Found" } ::
        (dispatchBatch now (dispatchBatch now st pre).2 post).1,
       (dispatchBatch now (dispatchBatch now st pre).2 post).2) ∧
    dispatchBatch now st (pre ++ post) =
      ((dispatchBatch now st pre).1 ++ (dispatchBatch now (dispatchBatch now st pre).2 post).1,
       (dispatchBatch now (dispatchBatch now st pre).2 post).2) := by
  have hstep := handleCall_update_missing now (dispatchBatch now st pre).2 fc hname hmiss
  constructor
  · rw [dispatch_append]
    simp [dispatchBatch, hstep]
  · exact dispatch_append now st pre post

/-- Witness for C4 at a concrete batch: a lone `update_task_status` on an
empty store yields exactly the 404 error result and leaves the store
empty. -/
theorem dispatch_isolation_check :
    dispatchBatch "t" [] [exUpdateCall] =
      ([{ id := "call-7", name := "update_task_status",
          payload := ToolPayload.errorPayload "404 Not Found" }], []) := by
  have h := (dispatch_isolation "t" [] [] [] exUpdateCall rfl
    (by simp [dispatchBatch])).1
  simpa [dispatchBatch, exUpdateCall] using h

/-- C7: create_task defaults — a `create_task` request with a title and no
priority argument produces exactly one result carrying the created task,
whose title is the given title, whose priority defaults to Medium, and whose
completion flag is false. -/
theorem create_task_defaults (now : String) (st : List Task) (cid : String)
    (args : ToolArgs) (hp : args.priority = none) :
    ∃ t : Task,
      (dispatchBatch now st [{ id := cid, name := "create_task", args := args }]).1 =
        [{ id := cid, name := "create_task", payload := ToolPayload.createdTask t }] ∧
      t.title = args.title ∧ t.priority = Priority.Medium ∧ t.completed = false := by
  refine ⟨(DjangoAPI.createTask now
    { title := args.title
      description := args.description.getD ""
      priority := args.priority.getD Priority.Medium
      completed := false
      due_date := args.due_date.getD "" } st).1, ?_, ?_, ?_, ?_⟩ <;>
    simp [dispatchBatch, handleCall, DjangoAPI.createTask, hp]

/-- Witness for C7: the "Buy milk" scenario. -/
theorem create_task_defaults_check :
    ∃ t : Task,
      (dispatchBatch "2025-01-01" [] [exCreateMilk]).1 =
        [{ id := "call-1", name := "create_task", payload := ToolPayload.createdTask t }] ∧
      t.title = "Buy milk" ∧ t.priority = Priority.Medium ∧ t.completed = false := by
  have h := create_task_defaults "2025-01-01" [] "call-1" { title := "Buy milk" } rfl
  simpa [exCreateMilk] using h

/-- C5: the dispatcher's `update_task_status` branch passes only
`{ completed }` to the store, so completing task 1 by voice sets its flag
but leaves `completed_at` unset — the completion time the claim requires is
never stamped on this path. -/
theorem update_status_no_stamp :
    (dispatchBatch "2025-01-02" [exStoreTask]
        [{ id := "call-2", name := "update_task_status",
           args := { id := 1, completed := true } }]).2.map
      (fun t => (t.id, t.completed, t.completed_at)) = [(1, true, none)] := by
  simp [dispatchBatch, handleCall, DjangoAPI.updateTask, exStoreTask, applyPatch]

/-- The UI path for the same store operation does stamp the completion
time: `handleToggle`'s update object carries `completed_at = now` whenever
it marks a task completed.  (Evidence that C5 states the intended
behaviour and the dispatcher omits it.) -/
theorem handleToggle_stamps (now : String) (t : Task) :
    (applyPatch t (handleTogglePatch now false)).completed = true ∧
    (applyPatch t (handleTogglePatch now false)).completed_at = some now := by
  simp [applyPatch, handleTogglePatch]

/-- C8 counterexample: deleting an id that is not in the store succeeds
silently (`ok`) instead of yielding NotFound — here on the empty store. -/
theorem delete_missing_succeeds : DjangoAPI.deleteTask [] 1 = Except.ok [] := rfl

/-- C8 amended: the task-store delete operation always returns ok — it
removes exactly the tasks whose id matches, and on an id that is absent it
returns ok with the list unchanged (never NotFound). -/
theorem delete_always_ok (tasks : List Task) (tid : Nat) :
    DjangoAPI.deleteTask tasks tid = Except.ok (tasks.filter (fun t => t.id != tid)) ∧
    (∀ t : Task, t ∈ tasks.filter (fun t => t.id != tid) ↔ t ∈ tasks ∧ t.id ≠ tid) ∧
    ((∀ t ∈ tasks, t.id ≠ tid) → DjangoAPI.deleteTask tasks tid = Except.ok tasks) := by
  refine ⟨rfl, by simp [List.mem_filter], fun h => ?_⟩
  have hf : tasks.filter (fun t => t.id != tid) = tasks :=
    List.filter_eq_self.mpr (fun t ht => by simpa using h t ht)
  simp [DjangoAPI.deleteTask, hf]

/-- Witness for C8's amended statement on a concrete store. -/
theorem delete_always_ok_check :
    DjangoAPI.deleteTask [exStoreTask] 2 = Except.ok [exStoreTask] :=
  (delete_always_ok [exStoreTask] 2).2.2 (by simp [exStoreTask])

/-- C9: start with device denied — when microphone access is denied the
session ends with the device-unavailable error ("Microphone access
denied."), `ai.live.connect` is never called (so no Connecting phase ever
begins), and the session never becomes active, whatever the transport
would have done. -/
theorem start_device_denied (connect : ConnectOutcome) :
    startLiveSession false connect =
      { liveError := some "Microphone access denied.", isLiveActive := false,
        connectAttempted := false, everActive := false } := rfl

/-- C10: implicit task-id uniqueness — `createTask` assigns
`max(existing ids) + 1` (1 on an empty store), which is strictly greater
than every existing id, so a store with pairwise-distinct ids keeps
pairwise-distinct ids after any create. -/
theorem create_id_unique (now : String) (data : CreateData) (tasks : List Task)
    (h : (tasks.map (fun t => t.id)).Nodup) :
    (∀ u ∈ tasks, u.id < (DjangoAPI.createTask now data tasks).1.id) ∧
    ((DjangoAPI.createTask now data tasks).2.map (fun t => t.id)).Nodup ∧
    (DjangoAPI.createTask now data tasks).1.id =
      (if tasks.isEmpty then 1 else (tasks.map (fun t => t.id)).foldr max 0 + 1) := by
  cases tasks with
  | nil => simp [DjangoAPI.createTask]
  | cons t0 rest =>
    have hlt : ∀ u ∈ t0 :: rest,
        u.id < ((t0 :: rest).map (fun t => t.id)).foldr max 0 + 1 := by
      intro u hu
      have := le_foldr_max ((t0 :: rest).map (fun t => t.id)) u.id
        (List.mem_map.2 ⟨u, hu, rfl⟩)
      omega
    refine ⟨?_, ?_, ?_⟩
    · intro u hu
      simpa [DjangoAPI.createTask] using hlt u hu
    · have h2 : (DjangoAPI.createTask now data (t0 :: rest)).2 =
          (DjangoAPI.createTask now data (t0 :: rest)).1 :: t0 :: rest := rfl
      have hid : (DjangoAPI.createTask now data (t0 :: rest)).1.id =
          ((t0 :: rest).map (fun t => t.id)).foldr max 0 + 1 := rfl
      rw [h2, List.map_cons, List.nodup_cons]
      refine ⟨?_, h⟩
      intro hmem
      rcases List.mem_map.1 hmem with ⟨u, hu, he⟩
      have hl := hlt u hu
      rw [hid] at he
      omega
    · simp [DjangoAPI.createTask]

/-- Witness for C10 on a one-task store: the created task gets id 2 and the
id list stays duplicate-free. -/
theorem create_id_unique_check :
    ((DjangoAPI.createTask "2025-01-01"
        { title := "t", description := "", priority := Priority.Low,
          completed := false, due_date := "" } [exStoreTask]).2.map
      (fun t => t.id)).Nodup :=
  (create_id_unique "2025-01-01"
    { title := "t", description := "", priority := Priority.Low,
      completed := false, due_date := "" } [exStoreTask] (by simp)).2.1

/-! ## Playback scheduler lemmas -/

theorem scheduleSegs_length (next : ℚ) (segs : List (ℚ × ℚ)) :
    (scheduleSegs next segs).length = segs.length := by
  induction segs generalizing next with
  | nil => rfl
  | cons s rest ih => cases s; simp [scheduleSegs, ih]

theorem scheduleSegs_head_ge (next : ℚ) (segs : List (ℚ × ℚ)) (h : segs ≠ []) :
    next ≤ (scheduleSegs next segs).getD 0 0 := by
  cases segs with
  | nil => exact absurd rfl h
  | cons s rest =>
    cases s with
    | mk a d =>
      simp only [scheduleSegs, List.getD_cons_zero]
      exact le_max_right a next

theorem scheduleSegs_step (segs : List (ℚ × ℚ)) (next : ℚ) (n : ℕ)
    (h : n + 1 < segs.length) :
    (scheduleSegs next segs).getD n 0 + (segs.getD n (0, 0)).2 ≤
      (scheduleSegs next segs).getD (n + 1) 0 := by
  induction segs generalizing next n with
  | nil => simp at h
  | cons s rest ih =>
    cases s with
    | mk a d =>
      cases n with
      | zero =>
        have hne : rest ≠ [] := by
          intro he; rw [he] at h; simp at h
        simpa [scheduleSegs] using scheduleSegs_head_ge (max a next + d) rest hne
      | succ k =>
        have h' : k + 1 < rest.length := by simpa using h
        simpa [scheduleSegs] using ih (max a next + d) k h'

theorem scheduleSegs_sum (segs : List (ℚ × ℚ)) (next : ℚ) (n : ℕ)
    (h : n < segs.length) :
    (scheduleSegs next segs).getD 0 0 + ((segs.take n).map Prod.snd).sum ≤
      (scheduleSegs next segs).getD n 0 := by
  induction segs generalizing next n with
  | nil => simp at h
  | cons s rest ih =>
    cases s with
    | mk a d =>
      cases n with
      | zero => simp
      | succ k =>
        have h' : k < rest.length := by simpa using h
        have hne : rest ≠ [] := by
          intro he; rw [he] at h'; simp at h'
        have h1 := scheduleSegs_head_ge (max a next + d) rest hne
        have h2 := ih (max a next + d) k h'
        simp only [scheduleSegs, List.getD_cons_succ, List.getD_cons_zero,
          List.take_succ_cons, List.map_cons, List.sum_cons]
        linarith

/-- C1: Playback scheduler non-overlap — with `nextStartTime` starting at 0,
segment n+1's scheduled start time is at least segment n's start time plus
segment n's duration, and the n-th start time is at least the first start
time plus the sum of all prior durations. -/
theorem playback_no_overlap (segs : List (ℚ × ℚ)) (n : ℕ) (h : n + 1 < segs.length) :
    (playbackStarts segs).getD n 0 + (segs.getD n (0, 0)).2 ≤
      (playbackStarts segs).getD (n + 1) 0 ∧
    (playbackStarts segs).getD 0 0 + ((segs.take n).map Prod.snd).sum ≤
      (playbackStarts segs).getD n 0 :=
  ⟨scheduleSegs_step segs 0 n h, scheduleSegs_sum segs 0 n (by omega)⟩

/-- Witness for C1 on two concrete segments: the second start time is at
least the first plus the first segment's duration. -/
theorem playback_no_overlap_check :
    (playbackStarts exSegs).getD 0 0 + (exSegs.getD 0 (0, 0)).2 ≤
      (playbackStarts exSegs).getD 1 0 :=
  (playback_no_overlap exSegs 0 (by simp [exSegs])).1

/-! ## Codec lemmas -/

theorem b64value_b64char : ∀ s, s < 64 → b64value (b64char s) = s := by decide

theorem b64char_ne_61 : ∀ s, s < 64 → b64char s ≠ 61 := by decide

theorem base64Decode_encode : ∀ bs : List Nat, (∀ b ∈ bs, b < 256) →
    base64Decode (base64Encode bs) = bs
  | [], _ => rfl
  | [b0], h => by
    have h0 : b0 < 256 := h b0 (by simp)
    have e0 := b64value_b64char (b0 / 4) (by omega)
    have e1 := b64value_b64char (b0 % 4 * 16) (by omega)
    simp [base64Encode, base64Decode, e0, e1]
    omega
  | [b0, b1], h => by
    have h0 : b0 < 256 := h b0 (by simp)
    have h1 : b1 < 256 := h b1 (by simp)
    have e0 := b64value_b64char (b0 / 4) (by omega)
    have e1 := b64value_b64char (b0 % 4 * 16 + b1 / 16) (by omega)
    have e2 := b64value_b64char (b1 % 16 * 4) (by omega)
    have ne2 := b64char_ne_61 (b1 % 16 * 4) (by omega)
    simp [base64Encode, base64Decode, ne2, e0, e1, e2]
    constructor <;> omega
  | b0 :: b1 :: b2 :: rest, h => by
    have h0 : b0 < 256 := h b0 (by simp)
    have h1 : b1 < 256 := h b1 (by simp)
    have h2 : b2 < 256 := h b2 (by simp)
    have ih := base64Decode_encode rest (fun b hb => h b (by simp [hb]))
    have e0 := b64value_b64char (b0 / 4) (by omega)
    have e1 := b64value_b64char (b0 % 4 * 16 + b1 / 16) (by omega)
    have e2 := b64value_b64char (b1 % 16 * 4 + b2 / 64) (by omega)
    have e3 := b64value_b64char (b2 % 64) (by omega)
    have ne2 := b64char_ne_61 (b1 % 16 * 4 + b2 / 64) (by omega)
    have ne3 := b64char_ne_61 (b2 % 64) (by omega)
    simp [base64Encode, base64Decode, ne2, ne3, e0, e1, e2, e3, ih]
    refine ⟨by omega, by omega, by omega⟩

theorem bytesToInt16_int16ToBytes : ∀ zs : List ℤ,
    (∀ z ∈ zs, -32768 ≤ z ∧ z < 32768) → bytesToInt16 (int16ToBytes zs) = zs
  | [], _ => rfl
  | z :: rest, h => by
    have hz := h z (by simp)
    have ih := bytesToInt16_int16ToBytes rest (fun u hu => h u (by simp [hu]))
    simp only [int16ToBytes, bytesToInt16, ih, List.cons.injEq, and_true]
    split <;> omega

theorem int16ToBytes_lt (zs : List ℤ) : ∀ b ∈ int16ToBytes zs, b < 256 := by
  induction zs with
  | nil => simp [int16ToBytes]
  | cons z rest ih =>
    simp only [int16ToBytes, List.mem_cons]
    rintro b (rfl | rfl | hb)
    · omega
    · have : ((z % 65536).toNat) < 65536 := by omega
      omega
    · exact ih b hb

theorem int16ToBytes_length (zs : List ℤ) :
    (int16ToBytes zs).length = 2 * zs.length := by
  induction zs with
  | nil => rfl
  | cons z rest ih => simp [int16ToBytes, ih]; omega

theorem pcm16_range (f : ℚ) : -32768 ≤ pcm16 f ∧ pcm16 f < 32768 := by
  simp only [pcm16, wrap16]
  have h1 := Int.emod_nonneg (truncQ (if clampSample f < 0 then clampSample f * 32768
    else clampSample f * 32767) + 32768) (by norm_num : (65536 : ℤ) ≠ 0)
  have h2 := Int.emod_lt_of_pos (truncQ (if clampSample f < 0 then clampSample f * 32768
    else clampSample f * 32767) + 32768) (by norm_num : (0 : ℤ) < 65536)
  omega

/-- The full encode-transmit-decode pipeline reduces to the per-sample
quantization map: base64 and the little-endian byte view are exact
round-trips. -/
theorem pipeline_eval (xs : List ℚ) :
    base64ToFloat32Array (arrayBufferToBase64 (int16ToBytes (float32To16BitPCM xs))) =
      Except.ok ((float32To16BitPCM xs).map decodedSample) := by
  have hrt := base64Decode_encode (int16ToBytes (float32To16BitPCM xs))
    (int16ToBytes_lt _)
  have hrange : ∀ z ∈ float32To16BitPCM xs, -32768 ≤ z ∧ z < 32768 := by
    intro z hz
    rcases List.mem_map.1 hz with ⟨x, _, rfl⟩
    exact pcm16_range x
  have hi16 := bytesToInt16_int16ToBytes (float32To16BitPCM xs) hrange
  have heven : (int16ToBytes (float32To16BitPCM xs)).length % 2 = 0 := by
    rw [int16ToBytes_length]; omega
  simp [base64ToFloat32Array, arrayBufferToBase64, hrt, int16ViewOfBytes, heven, hi16]

/-- Per-sample quantization error: within one step (1/32768) for negative
samples, and strictly below two steps in general (the positive branch
scales by 32767 but decodes by 32768, adding up to one extra step). -/
theorem pcm16_close (x : ℚ) (h1 : -1 ≤ x) (h2 : x ≤ 1) :
    |decodedSample (pcm16 x) - x| < 2 / 32768 := by
  have hc : clampSample x = x := by
    unfold clampSample
    rw [min_eq_right h2, max_eq_right h1]
  rw [decodedSample, pcm16, hc]
  by_cases hx : x < 0
  · rw [if_pos hx]
    have hq : x * 32768 < 0 := mul_neg_of_neg_of_pos hx (by norm_num)
    rw [truncQ, if_pos hq]
    have hfl_le : (⌊-(x * 32768)⌋ : ℚ) ≤ -(x * 32768) := Int.floor_le _
    have hfl_gt : -(x * 32768) < ⌊-(x * 32768)⌋ + 1 := Int.lt_floor_add_one _
    have hfl_nonneg : 0 ≤ ⌊-(x * 32768)⌋ := Int.floor_nonneg.2 (by nlinarith)
    have hfl_le' : ⌊-(x * 32768)⌋ ≤ 32768 := by
      have hb : -(x * 32768) ≤ ((32768 : ℤ) : ℚ) := by push_cast; nlinarith
      exact (Int.floor_mono hb).trans_eq (Int.floor_intCast 32768)
    have hw : wrap16 (-⌊-(x * 32768)⌋) = -⌊-(x * 32768)⌋ := by
      rw [wrap16]; omega
    rw [hw]
    rw [abs_lt]
    constructor <;> push_cast <;> nlinarith
  · rw [if_neg hx]
    push_neg at hx
    have hq : ¬x * 32767 < 0 := by nlinarith
    rw [truncQ, if_neg hq]
    have hfl_le : (⌊x * 32767⌋ : ℚ) ≤ x * 32767 := Int.floor_le _
    have hfl_gt : x * 32767 < ⌊x * 32767⌋ + 1 := Int.lt_floor_add_one _
    have hfl_nonneg : 0 ≤ ⌊x * 32767⌋ := Int.floor_nonneg.2 (by nlinarith)
    have hfl_le' : ⌊x * 32767⌋ ≤ 32767 := by
      have hb : x * 32767 ≤ ((32767 : ℤ) : ℚ) := by push_cast; nlinarith
      exact (Int.floor_mono hb).trans_eq (Int.floor_intCast 32767)
    have hw : wrap16 ⌊x * 32767⌋ = ⌊x * 32767⌋ := by
      rw [wrap16]; omega
    rw [hw]
    rw [abs_lt]
    constructor <;> nlinarith

/-- C2 counterexample: the sample 65535/65536 (representable in a 32-bit
float) is clamped to itself, scaled by 32767 to 32766.5000…, truncated to
32766 and decoded as 32766/32768 = 16383/16384; the round-trip error is
3/65536, which exceeds one quantization step 1/32768 = 2/65536. -/
theorem codec_one_step_false :
    base64ToFloat32Array (arrayBufferToBase64 (int16ToBytes (float32To16BitPCM
        [(65535 : ℚ)/65536]))) = Except.ok [(16383 : ℚ)/16384] ∧
    ¬(|(16383 : ℚ)/16384 - (65535 : ℚ)/65536| ≤ 1/32768) := by
  have hp : pcm16 ((65535 : ℚ)/65536) = 32766 := by
    have hcl : clampSample ((65535 : ℚ)/65536) = (65535 : ℚ)/65536 := by
      unfold clampSample
      rw [min_eq_right (by norm_num), max_eq_right (by norm_num)]
    have harith : (65535 : ℚ)/65536 * 32767 = 2147385345/65536 := by norm_num
    have hfl : ⌊(2147385345 : ℚ)/65536⌋ = 32766 := by
      rw [Int.floor_eq_iff]
      norm_num
    rw [pcm16, hcl, if_neg (by norm_num), harith, truncQ, if_neg (by norm_num), hfl]
    rw [wrap16]
    norm_num
  constructor
  · rw [pipeline_eval]
    simp only [float32To16BitPCM, List.map_cons, List.map_nil, hp, decodedSample]
    norm_num
  · rw [abs_of_neg (by norm_num)]
    norm_num

/-- C2 amended: decoding the encoded form of any sample sequence with each
sample in [-1, 1] yields a sequence of the same length whose i-th element
differs from the original by strictly less than two quantization steps
(2/32768); the one-step bound of the original claim fails for samples close
to 1, because encoding scales non-negative samples by 32767 while decoding
divides by 32768. -/
theorem codec_round_trip_bound (xs : List ℚ) (h : ∀ x ∈ xs, -1 ≤ x ∧ x ≤ 1) :
    base64ToFloat32Array (arrayBufferToBase64 (int16ToBytes (float32To16BitPCM xs))) =
      Except.ok (xs.map (fun x => decodedSample (pcm16 x))) ∧
    (xs.map (fun x => decodedSample (pcm16 x))).length = xs.length ∧
    ∀ x ∈ xs, |decodedSample (pcm16 x) - x| < 2 / 32768 := by
  refine ⟨?_, by simp, fun x hx => pcm16_close x (h x hx).1 (h x hx).2⟩
  rw [pipeline_eval]
  simp only [float32To16BitPCM, List.map_map]
  rfl

/-- Witness for C2's amended statement on the sample 1/2. -/
theorem codec_round_trip_bound_check :
    base64ToFloat32Array (arrayBufferToBase64 (int16ToBytes (float32To16BitPCM
        [(1 : ℚ)/2]))) = Except.ok ([(1 : ℚ)/2].map (fun x => decodedSample (pcm16 x))) :=
  (codec_round_trip_bound [(1 : ℚ)/2] (by norm_num)).1

/-- C6 counterexample: the valid base64 text "AQ==" (character codes
65, 81, 61, 61) decodes to the single byte 1; the codec fails on it with
the typed-array RangeError, which is not a dedicated MalformedAudio
rejection. -/
theorem odd_decode_not_malformed :
    base64ToFloat32Array [65, 81, 61, 61] = Except.error AudioError.rangeError ∧
    (Except.error AudioError.rangeError : Except AudioError (List ℚ)) ≠
      Except.error AudioError.malformedAudio :=
  ⟨rfl, by simp⟩

/-- C6 amended: every base64 input whose decoded byte sequence has odd
length makes `base64ToFloat32Array` fail (no samples are produced, nothing
is silently truncated) — but with the generic RangeError thrown by
`new Int16Array(buffer)` during decoding, not with a dedicated
MalformedAudio error issued before decoding. -/
theorem odd_length_raises_range_error (base64 : List Nat)
    (h : (base64Decode base64).length % 2 = 1) :
    base64ToFloat32Array base64 = Except.error AudioError.rangeError := by
  simp only [base64ToFloat32Array, int16ViewOfBytes]
  rw [if_neg (by omega)]

/-- Witness for C6's amended statement: "AA==" decodes to one byte and is
rejected with the RangeError. -/
theorem odd_length_raises_range_error_check :
    base64ToFloat32Array [65, 65, 61, 61] = Except.error AudioError.rangeError :=
  odd_length_raises_range_error [65, 65, 61, 61] (by rfl)

end TaskFlow
